import Mathlib

/-!
Shallow embedding of the farfalle retrieval-and-orchestration pipeline and of
the frontend components `StarterQuestionsList` and `RecentsPage`.

The backend layer (ResultCache, SearchGateway, QueryRephraser, PlanExecutor,
StreamEmitter) is modelled from the specification together with the repository
documentation (`caching.md`, `prompting.md`); the Python sources
`search/search_service.py`, `chat.py` and `agent_search.py` they describe are
not part of the source tree.  The frontend components are translated from
`src/frontend/src/components/starter-questions.tsx` and the history page in
`src/unnamed/part_000`.

Time is modelled as a natural number of seconds; the Redis backend is an
association list from keys to (value, absolute expiry) pairs plus a
reachability flag.
-/

/-- A single ranked search result item: title, url, snippet, optional date. -/
structure SearchResultItem where
  title : String
  url : String
  snippet : String
  publishedDate : Option String
  deriving DecidableEq

/-- An ordered result set together with its originating query and provider. -/
structure SearchResultSet where
  query : String
  provider : String
  items : List SearchResultItem
  deriving DecidableEq

/-- Modelled from the spec: the error of an unreachable cache backend store
(the real `redis_client` connection failure); absorbed inside ResultCache. -/
inductive CacheError where
  | unreachable
  deriving DecidableEq

/-- A failed provider backend call: backend name and cause. -/
structure ProviderError where
  backend : String
  cause : String
  deriving DecidableEq

/-- SearchGateway failure, wrapping the underlying provider error. -/
structure RetrievalError where
  wrapped : ProviderError
  deriving DecidableEq

/-- Modelled from the spec: the Redis key-value store behind ResultCache.
`reachable` is false when the backend store is unreachable; `entries` maps a
string key to a stored SearchResultSet and its absolute expiry time. -/
structure CacheBackend where
  reachable : Bool
  entries : List (String × SearchResultSet × Nat)
  deriving DecidableEq

/-- Key derivation from `caching.md`: the fixed namespace prefix followed by
the raw query text, with no normalization. -/
def cache_key (query : String) : String := "search:" ++ query

/-- First-match lookup in the backend entry list. -/
def lookupEntry : List (String × SearchResultSet × Nat) → String → Option (SearchResultSet × Nat)
  | [], _ => none
  | (k, v, e) :: rest, key => if k = key then some (v, e) else lookupEntry rest key

/-- Modelled from the spec: raw backend GET; fails when the store is
unreachable, otherwise returns the entry stored under the key, if any. -/
def backendGet (c : CacheBackend) (k : String) : Except CacheError (Option (SearchResultSet × Nat)) :=
  if c.reachable then .ok (lookupEntry c.entries k) else .error .unreachable

/-- Modelled from the spec: raw backend SET with absolute expiry (the real
`redis_client.set(..., ex=7200)`); fails when the store is unreachable. -/
def backendSetEx (c : CacheBackend) (k : String) (v : SearchResultSet) (expiry : Nat) :
    Except CacheError CacheBackend :=
  if c.reachable then .ok { c with entries := (k, v, expiry) :: c.entries }
  else .error .unreachable

/-- Modelled from the spec: `ResultCache.get`.  A backend failure is downgraded
to a miss; a stored entry is a hit only while `now < expiry`. -/
def ResultCache.get (c : CacheBackend) (now : Nat) (query : String) : Option SearchResultSet :=
  match backendGet c (cache_key query) with
  | .error _ => none
  | .ok none => none
  | .ok (some (v, e)) => if now < e then some v else none

/-- The fixed TTL from `caching.md`: 2 hours = 7200 seconds. -/
def cacheTTL : Nat := 7200

/-- Modelled from the spec: `ResultCache.put` writes under `cache_key query`
with absolute expiry `now + cacheTTL`; a backend failure is swallowed and the
cache state is left unchanged. -/
def ResultCache.put (c : CacheBackend) (now : Nat) (query : String) (rs : SearchResultSet) :
    CacheBackend :=
  match backendSetEx c (cache_key query) rs (now + cacheTTL) with
  | .ok c2 => c2
  | .error _ => c

deriving instance DecidableEq for Except

/-- Outcome of one `SearchGateway.retrieve` call: the result or error, the
cache state afterwards, and how many provider calls were made. -/
structure RetrieveOutcome where
  result : Except RetrievalError SearchResultSet
  cache : CacheBackend
  providerCalls : Nat
  deriving DecidableEq

/-- Modelled from the spec: `SearchGateway.retrieve` (the documented
`perform_search`).  Cache-aside: on hit return immediately with no provider
call; on miss call the provider once; on provider failure propagate a
RetrievalError with no cache write; on success best-effort `put` and return. -/
def SearchGateway.retrieve (provider : String → Except ProviderError SearchResultSet)
    (c : CacheBackend) (now : Nat) (query : String) : RetrieveOutcome :=
  match ResultCache.get c now query with
  | some rs => ⟨.ok rs, c, 0⟩
  | none =>
    match provider query with
    | .error pe => ⟨.error ⟨pe⟩, c, 1⟩
    | .ok rs => ⟨.ok rs, ResultCache.put c now query rs, 1⟩

/-- Modelled from the spec: `rephrase` (the documented
`rephrase_query_with_history`).  Returns the refined query together with the
number of language-model invocations made; with no prior turns it returns the
current query unchanged and never invokes the model. -/
def rephrase (model : String → List String → String) (currentQuery : String)
    (priorTurns : List String) : String × Nat :=
  if priorTurns.isEmpty then (currentQuery, 0)
  else (model currentQuery priorTurns, 1)

/-- The tagged stream event variants of the spec's data model. -/
inductive StreamEvent where
  | rephrasedQuery (q : String)
  | searchResults (stepIndex : Nat) (rs : SearchResultSet)
  | synthesisToken (t : String)
  | synthesisDone
  | followUpQuestions (qs : List String)
  | error (message : String)
  deriving DecidableEq

/-- Modelled from the spec: the per-request StreamEmitter, holding the outward
ordered channel and whether `close` has already been called. -/
structure StreamEmitter where
  channel : List StreamEvent
  closed : Bool
  deriving DecidableEq

/-- A fresh per-request emitter: empty channel, not closed. -/
def StreamEmitter.new : StreamEmitter := ⟨[], false⟩

/-- Modelled from the spec: `emit` appends the event to the outward channel in
program order; emitting after `close` is invalid (returns `none`). -/
def StreamEmitter.emit (e : StreamEmitter) (ev : StreamEvent) : Option StreamEmitter :=
  if e.closed then none else some { e with channel := e.channel ++ [ev] }

/-- Modelled from the spec: `close` marks the stream closed; a second `close`
is invalid (returns `none`). -/
def StreamEmitter.close (e : StreamEmitter) : Option StreamEmitter :=
  if e.closed then none else some { e with closed := true }

/-- One operation issued against the emitter during a request. -/
inductive EmitterOp where
  | emitOp (ev : StreamEvent)
  | closeOp
  deriving DecidableEq

/-- Run a sequence of emitter operations; fails (`none`) as soon as any single
operation is invalid. -/
def runOps : StreamEmitter → List EmitterOp → Option StreamEmitter
  | e, [] => some e
  | e, .emitOp ev :: rest =>
    match e.emit ev with
    | some e2 => runOps e2 rest
    | none => none
  | e, .closeOp :: rest =>
    match e.close with
    | some e2 => runOps e2 rest
    | none => none

/-- One step of a generated plan: sub-query text and intent label.  The
sequence index is the step's position in the plan list. -/
structure PlanStep where
  subQuery : String
  intent : String
  deriving DecidableEq

/-- The PlanExecutor state machine states of the spec. -/
inductive ExecState where
  | Pending
  | Running (stepIndex : Nat)
  | Completed
  | Failed
  deriving DecidableEq

/-- Boolean success test for an `Except` value. -/
def exceptOk : Except RetrievalError SearchResultSet → Bool
  | .ok _ => true
  | .error _ => false

/-- The successful payload of an `Except` value, if any. -/
def exceptToOption : Except RetrievalError SearchResultSet → Option SearchResultSet
  | .ok rs => some rs
  | .error _ => none

/-- Modelled from the spec: the sequential step loop of PlanExecutor.  Starting
at step index `idx`, each step retrieves its sub-query: on success the result
set is appended to the context and a `searchResults` event tagged with the
step index is emitted; on failure an `error` event is emitted at that step's
position and execution continues.  Returns the accumulated context, the
per-step events in order, and the number of successful steps. -/
def runSteps (f : String → Except RetrievalError SearchResultSet) :
    List PlanStep → Nat → List SearchResultSet × List StreamEvent × Nat
  | [], _ => ([], [], 0)
  | step :: rest, idx =>
    let tail := runSteps f rest (idx + 1)
    match f step.subQuery with
    | .ok rs => (rs :: tail.1, .searchResults idx rs :: tail.2.1, tail.2.2 + 1)
    | .error e => (tail.1, .error e.wrapped.cause :: tail.2.1, tail.2.2)

/-- Result of executing a validated plan: the terminal state, the
ExecutionContext exposed downstream (absent when the plan failed), the emitted
per-step events, and the surfaced error, if any. -/
structure ExecResult where
  state : ExecState
  exposedContext : Option (List SearchResultSet)
  events : List StreamEvent
  surfaced : Option RetrievalError
  deriving DecidableEq

/-- Modelled from the spec: `PlanExecutor.execute` runs the validated plan's
steps strictly sequentially from step 0.  A step failure is not fatal; the
terminal state is `Completed` with a partial ExecutionContext unless every
step of a nonempty plan failed, in which case the terminal state is `Failed`,
a RetrievalError is surfaced, and no ExecutionContext is exposed downstream. -/
def PlanExecutor.execute (f : String → Except RetrievalError SearchResultSet)
    (steps : List PlanStep) : ExecResult :=
  if (runSteps f steps 0).2.2 = 0 ∧ steps ≠ [] then
    ⟨.Failed, none, (runSteps f steps 0).2.1, some ⟨⟨"plan", "all steps failed"⟩⟩⟩
  else
    ⟨.Completed, some (runSteps f steps 0).1, (runSteps f steps 0).2.1, none⟩

/-- The fixed starter question list of
`src/frontend/src/components/starter-questions.tsx`. -/
def starterQuestions : List String :=
  [ "What does chicken taste like?",
    "Write clear instructions on how to make a peanut butter sandwich.",
    "Write a python hello world application that prints hello world in a random color.",
    "Write a recipe for an authentic pierogi?" ]

/-- One rendered list item of `StarterQuestionsList`: the button label and the
arguments that one activation of the button passes to `handleSend` (the
source's `onClick` is a thunk calling `handleSend(question)` once). -/
structure RenderedItem where
  label : String
  onClickCalls : List String
  deriving DecidableEq

/-- `StarterQuestionsList` renders one list item per entry of
`starterQuestions`, in array order; each item's button activation calls
`handleSend` exactly once with that item's question. -/
def StarterQuestionsList : List RenderedItem :=
  starterQuestions.map (fun q => { label := q, onClickCalls := [q] })

/-- The calls to `handleSend` produced by activating a rendered item once. -/
def activate (item : RenderedItem) : List String := item.onClickCalls

/-- The three ways the `fetch` in `handleClearHistory` can turn out: an `ok`
response, a non-ok response carrying an optional error `detail`, or a thrown
network error. -/
inductive FetchOutcome where
  | ok (body : String)
  | notOk (detail : Option String)
  | threw (message : String)
  deriving DecidableEq

/-- Whether the fetch produced an `ok` response. -/
def FetchOutcome.isOk : FetchOutcome → Bool
  | .ok _ => true
  | _ => false

/-- The externally visible effects of one completed `handleClearHistory` run:
how many times `refetch()` was invoked and the final `showToast` value. -/
structure ClearEffects where
  refetchCalls : Nat
  finalShowToast : Bool
  deriving DecidableEq

/-- The `try` body of `handleClearHistory` in `src/unnamed/part_000`: a non-ok
response throws `new Error(errorData.detail or fallback)`; a rejected fetch
propagates; on an ok response `refetch()` then `setShowToast(false)` run. -/
def clearHistoryTry : FetchOutcome → Except String ClearEffects
  | .threw msg => .error msg
  | .notOk detail => .error (detail.getD "Failed to clear history")
  | .ok _ => .ok { refetchCalls := 1, finalShowToast := false }

/-- `handleClearHistory` from `src/unnamed/part_000`: the `catch` block only
logs and runs `setShowToast(false)`. -/
def handleClearHistory (o : FetchOutcome) : ClearEffects :=
  match clearHistoryTry o with
  | .ok eff => eff
  | .error _ => { refetchCalls := 0, finalShowToast := false }

/-- A concrete result set used by several witnesses. -/
def sampleSet : SearchResultSet := ⟨"capital of France", "tavily", []⟩

/-- A provider double that always fails, used by witnesses. -/
def failingProvider : String → Except ProviderError SearchResultSet :=
  fun _ => .error ⟨"bing", "quota"⟩

/-- A retrieval double failing exactly on sub-query b, used by witnesses. -/
def planF : String → Except RetrievalError SearchResultSet :=
  fun s => if s = "b" then .error ⟨⟨"tavily", "down"⟩⟩ else .ok ⟨s, "tavily", []⟩

/-- A concrete three-step plan whose middle step fails under `planF`. -/
def planSteps : List PlanStep :=
  [⟨"a", "search"⟩, ⟨"b", "search"⟩, ⟨"c", "search"⟩]

/-! ## Helper lemmas -/

/-- Prefixing emits onto a run of further operations appends the events to the
channel in program order. -/
theorem runOps_emit_phase (evs : List StreamEvent) :
    ∀ (acc : List StreamEvent) (rest : List EmitterOp),
    runOps ⟨acc, false⟩ (evs.map EmitterOp.emitOp ++ rest) =
      runOps ⟨acc ++ evs, false⟩ rest := by
  induction evs with
  | nil => intro acc rest; simp [runOps]
  | cons ev evs ih =>
    intro acc rest
    simp only [List.map_cons, List.cons_append]
    show runOps ⟨acc, false⟩ (.emitOp ev :: (evs.map EmitterOp.emitOp ++ rest)) = _
    rw [runOps]
    simp only [StreamEmitter.emit]
    rw [if_neg (by simp)]
    have := ih (acc ++ [ev]) rest
    simpa using this

/-- The accumulated context of the step loop is exactly the successful steps'
result sets, in step order. -/
theorem runSteps_ctx (f : String → Except RetrievalError SearchResultSet) :
    ∀ (steps : List PlanStep) (idx : Nat),
    (runSteps f steps idx).1 = steps.filterMap (fun s => exceptToOption (f s.subQuery)) := by
  intro steps
  induction steps with
  | nil => intro idx; simp [runSteps]
  | cons step rest ih =>
    intro idx
    rw [runSteps]
    cases hf : f step.subQuery with
    | ok rs => simp [hf, ih (idx + 1), List.filterMap_cons, exceptToOption]
    | error e => simp [hf, ih (idx + 1), List.filterMap_cons, exceptToOption]

/-- The step loop emits exactly one event per plan step. -/
theorem runSteps_events_length (f : String → Except RetrievalError SearchResultSet) :
    ∀ (steps : List PlanStep) (idx : Nat),
    (runSteps f steps idx).2.1.length = steps.length := by
  intro steps
  induction steps with
  | nil => intro idx; simp [runSteps]
  | cons step rest ih =>
    intro idx
    rw [runSteps]
    cases hf : f step.subQuery with
    | ok rs => simp [hf, ih (idx + 1)]
    | error e => simp [hf, ih (idx + 1)]

/-- The success counter of the step loop is zero exactly when every step's
retrieval failed. -/
theorem runSteps_succ_zero (f : String → Except RetrievalError SearchResultSet) :
    ∀ (steps : List PlanStep) (idx : Nat),
    ((runSteps f steps idx).2.2 = 0 ↔ ∀ s ∈ steps, ¬ exceptOk (f s.subQuery)) := by
  intro steps
  induction steps with
  | nil => intro idx; simp [runSteps]
  | cons step rest ih =>
    intro idx
    rw [runSteps]
    cases hf : f step.subQuery with
    | ok rs =>
      simp [hf, exceptOk]
    | error e =>
      simp only [hf]
      constructor
      · intro h s hs
        rcases List.mem_cons.mp hs with hs | hs
        · subst hs; simp [hf, exceptOk]
        · exact ((ih (idx + 1)).1 h) s hs
      · intro h
        exact (ih (idx + 1)).2 (fun s hs => h s (List.mem_cons_of_mem _ hs))

/-- The event at position i of the step loop is a `searchResults` event tagged
with the step's index when step i succeeded, and an `error` event when it
failed. -/
theorem runSteps_events_get (f : String → Except RetrievalError SearchResultSet) :
    ∀ (steps : List PlanStep) (idx : Nat) (i : Nat) (h : i < steps.length),
    (runSteps f steps idx).2.1.getD i StreamEvent.synthesisDone =
      (match f ((steps.get ⟨i, h⟩).subQuery) with
       | .ok rs => StreamEvent.searchResults (idx + i) rs
       | .error e => StreamEvent.error e.wrapped.cause) := by
  intro steps
  induction steps with
  | nil => intro idx i h; simp at h
  | cons step rest ih =>
    intro idx i h
    rw [runSteps]
    cases hf : f step.subQuery with
    | ok rs =>
      cases i with
      | zero => simp [hf]
      | succ j =>
        have hj : j < rest.length := by simpa using h
        have hh := ih (idx + 1) j hj
        simp only [hf]
        show (StreamEvent.searchResults idx rs :: (runSteps f rest (idx + 1)).2.1).getD (j + 1)
            StreamEvent.synthesisDone = _
        rw [List.getD_cons_succ]
        rw [hh]
        have : idx + 1 + j = idx + (j + 1) := by omega
        simp [List.get, this]
    | error e =>
      cases i with
      | zero => simp [hf]
      | succ j =>
        have hj : j < rest.length := by simpa using h
        have hh := ih (idx + 1) j hj
        simp only [hf]
        show (StreamEvent.error e.wrapped.cause :: (runSteps f rest (idx + 1)).2.1).getD (j + 1)
            StreamEvent.synthesisDone = _
        rw [List.getD_cons_succ]
        rw [hh]
        have : idx + 1 + j = idx + (j + 1) := by omega
        simp [List.get, this]

/-! ## Claim theorems -/

/-- Claim C1: on any cache hit `retrieve` returns the cached result set
immediately with zero provider calls and unchanged cache; and after a first
`retrieve` on a miss whose provider call succeeded and whose cache write did
not fail (reachable backend), a second `retrieve` of the same query at any
time before the cached entry's TTL expires returns the cached result set with
zero provider calls, whatever provider the second call would use. -/
theorem cache_hit_short_circuit :
    (∀ (p : String → Except ProviderError SearchResultSet) (c : CacheBackend) (now : Nat)
        (q : String) (rs : SearchResultSet),
      ResultCache.get c now q = some rs →
      SearchGateway.retrieve p c now q = ⟨.ok rs, c, 0⟩) ∧
    (∀ (p p2 : String → Except ProviderError SearchResultSet) (c : CacheBackend)
        (t0 t1 : Nat) (q : String) (rs : SearchResultSet),
      c.reachable = true → ResultCache.get c t0 q = none → p q = .ok rs →
      t1 < t0 + cacheTTL →
      SearchGateway.retrieve p2 (SearchGateway.retrieve p c t0 q).cache t1 q =
        ⟨.ok rs, (SearchGateway.retrieve p c t0 q).cache, 0⟩) := by
  have hit : ∀ (p : String → Except ProviderError SearchResultSet) (c : CacheBackend) (now : Nat)
      (q : String) (rs : SearchResultSet),
      ResultCache.get c now q = some rs →
      SearchGateway.retrieve p c now q = ⟨.ok rs, c, 0⟩ := by
    intro p c now q rs h
    simp [SearchGateway.retrieve, h]
  refine ⟨hit, ?_⟩
  intro p p2 c t0 t1 q rs hr hm hp ht
  have hcache : (SearchGateway.retrieve p c t0 q).cache = ResultCache.put c t0 q rs := by
    simp [SearchGateway.retrieve, hm, hp]
  have hget : ResultCache.get (SearchGateway.retrieve p c t0 q).cache t1 q = some rs := by
    rw [hcache]
    simp [ResultCache.put, backendSetEx, hr, ResultCache.get, backendGet, lookupEntry, ht]
  exact hit p2 _ t1 q rs hget

/-- Witness for C1: a concrete miss-then-hit round trip within the TTL. -/
theorem cache_hit_short_circuit_witness :
    (⟨true, []⟩ : CacheBackend).reachable = true ∧
    ResultCache.get ⟨true, []⟩ 0 "capital of France" = none ∧
    (fun _ : String => (Except.ok sampleSet : Except ProviderError SearchResultSet))
      "capital of France" = .ok sampleSet ∧
    3600 < 0 + cacheTTL ∧
    SearchGateway.retrieve failingProvider
        (SearchGateway.retrieve (fun _ => .ok sampleSet) ⟨true, []⟩ 0 "capital of France").cache
        3600 "capital of France" =
      ⟨.ok sampleSet,
        (SearchGateway.retrieve (fun _ => .ok sampleSet) ⟨true, []⟩ 0 "capital of France").cache,
        0⟩ :=
  ⟨rfl, rfl, rfl, by decide,
    cache_hit_short_circuit.2 (fun _ => .ok sampleSet) failingProvider ⟨true, []⟩ 0 3600
      "capital of France" sampleSet rfl rfl rfl (by decide)⟩

/-- Claim C2: executing a validated plan in which at least one step succeeds
terminates Completed, exposing exactly the successful steps' result sets as
the ExecutionContext and surfacing no error; a nonempty plan in which every
step fails terminates Failed, exposes no ExecutionContext and surfaces a
RetrievalError; in all cases there is one event per step and the event at a
failed step's position is an error event while a successful step's position
carries its `searchResults` event tagged with the step index. -/
theorem plan_executor_outcomes
    (f : String → Except RetrievalError SearchResultSet) (steps : List PlanStep) :
    ((∃ s ∈ steps, exceptOk (f s.subQuery)) →
      (PlanExecutor.execute f steps).state = ExecState.Completed ∧
      (PlanExecutor.execute f steps).exposedContext =
        some (steps.filterMap (fun s => exceptToOption (f s.subQuery))) ∧
      (PlanExecutor.execute f steps).surfaced = none) ∧
    ((steps ≠ [] ∧ ∀ s ∈ steps, ¬ exceptOk (f s.subQuery)) →
      (PlanExecutor.execute f steps).state = ExecState.Failed ∧
      (PlanExecutor.execute f steps).exposedContext = none ∧
      (PlanExecutor.execute f steps).surfaced.isSome = true) ∧
    (PlanExecutor.execute f steps).events.length = steps.length ∧
    (∀ (i : Nat) (h : i < steps.length),
      (PlanExecutor.execute f steps).events.getD i StreamEvent.synthesisDone =
        (match f ((steps.get ⟨i, h⟩).subQuery) with
         | .ok rs => StreamEvent.searchResults i rs
         | .error e => StreamEvent.error e.wrapped.cause)) := by
  have hev : (PlanExecutor.execute f steps).events = (runSteps f steps 0).2.1 := by
    unfold PlanExecutor.execute
    by_cases hc : (runSteps f steps 0).2.2 = 0 ∧ steps ≠ []
    · rw [if_pos hc]
    · rw [if_neg hc]
  refine ⟨?_, ?_, ?_, ?_⟩
  · intro hex
    have hnz : ¬ ((runSteps f steps 0).2.2 = 0 ∧ steps ≠ []) := by
      rintro ⟨hz, _⟩
      obtain ⟨s, hs, hok⟩ := hex
      exact ((runSteps_succ_zero f steps 0).1 hz) s hs hok
    have hE : PlanExecutor.execute f steps =
        ⟨.Completed, some (runSteps f steps 0).1, (runSteps f steps 0).2.1, none⟩ := by
      unfold PlanExecutor.execute
      rw [if_neg hnz]
    rw [hE]
    exact ⟨rfl, by rw [runSteps_ctx f steps 0], rfl⟩
  · rintro ⟨hne, hall⟩
    have hz : (runSteps f steps 0).2.2 = 0 := (runSteps_succ_zero f steps 0).2 hall
    have hE : PlanExecutor.execute f steps =
        ⟨.Failed, none, (runSteps f steps 0).2.1,
          some ⟨⟨"plan", "all steps failed"⟩⟩⟩ := by
      unfold PlanExecutor.execute
      rw [if_pos ⟨hz, hne⟩]
    rw [hE]
    exact ⟨rfl, rfl, rfl⟩
  · rw [hev, runSteps_events_length]
  · intro i h
    rw [hev]
    have := runSteps_events_get f steps 0 i h
    simpa using this

/-- Witness for C2: a three-step plan whose middle step fails completes. -/
theorem plan_executor_outcomes_witness :
    (∃ s ∈ planSteps, exceptOk (planF s.subQuery)) ∧
    (PlanExecutor.execute planF planSteps).state = ExecState.Completed := by
  have h : ∃ s ∈ planSteps, exceptOk (planF s.subQuery) :=
    ⟨⟨"a", "search"⟩, by decide, by decide⟩
  exact ⟨h, ((plan_executor_outcomes planF planSteps).1 h).1⟩

/-- Claim C3: the cache key is the exact concatenation of the fixed namespace
prefix and the raw query text; key derivation is injective, so queries
differing only in case or whitespace yield distinct keys, and a `put` under
one raw query never affects a `get` of a different raw query. -/
theorem cache_key_exact_concat :
    (∀ q : String, cache_key q = "search:" ++ q) ∧
    (∀ q1 q2 : String, cache_key q1 = cache_key q2 → q1 = q2) ∧
    cache_key "foo" ≠ cache_key "Foo" ∧
    cache_key "foo" ≠ cache_key " foo" ∧
    (∀ (c : CacheBackend) (now : Nat) (q1 q2 : String) (v : SearchResultSet),
      q1 ≠ q2 →
      ResultCache.get (ResultCache.put c now q2 v) now q1 = ResultCache.get c now q1) := by
  refine ⟨fun q => rfl, ?_, by decide, by decide, ?_⟩
  · intro q1 q2 h
    have hd : (cache_key q1).data = (cache_key q2).data := by rw [h]
    simp [cache_key, String.data_append] at hd
    exact String.ext hd
  · intro c now q1 q2 v hne
    have hkey : cache_key q2 ≠ cache_key q1 := by
      intro h
      have hd : (cache_key q2).data = (cache_key q1).data := by rw [h]
      simp [cache_key, String.data_append] at hd
      exact hne (String.ext hd).symm
    by_cases hr : c.reachable
    · simp [ResultCache.put, backendSetEx, hr, ResultCache.get, backendGet, lookupEntry, hkey]
    · simp [ResultCache.put, backendSetEx, hr]

/-- Witness for C3: writing under one query leaves a case-differing query's
lookup untouched. -/
theorem cache_key_exact_concat_witness :
    ("Paris" : String) ≠ "paris" ∧
    ResultCache.get (ResultCache.put ⟨true, []⟩ 5 "paris" sampleSet) 5 "Paris" =
      ResultCache.get ⟨true, []⟩ 5 "Paris" :=
  ⟨by decide, cache_key_exact_concat.2.2.2.2 ⟨true, []⟩ 5 "Paris" "paris" sampleSet (by decide)⟩

/-- Claim C4: `put` stores under the query's key with absolute expiry exactly
the write time plus 7200 seconds; a hit is returned only when the current time
is strictly before the stored expiry; `put` leaves every other key unchanged;
and once the TTL has elapsed the freshly written entry is no longer
returned. -/
theorem put_fixed_ttl :
    (∀ (c : CacheBackend) (now : Nat) (q : String) (rs : SearchResultSet), c.reachable = true →
      lookupEntry (ResultCache.put c now q rs).entries (cache_key q) = some (rs, now + 7200)) ∧
    (∀ (c : CacheBackend) (now : Nat) (q : String) (rs : SearchResultSet),
      ResultCache.get c now q = some rs →
      ∃ e, lookupEntry c.entries (cache_key q) = some (rs, e) ∧ now < e) ∧
    (∀ (c : CacheBackend) (now : Nat) (q : String) (rs : SearchResultSet) (k : String),
      k ≠ cache_key q →
      lookupEntry (ResultCache.put c now q rs).entries k = lookupEntry c.entries k) ∧
    (∀ (c : CacheBackend) (now t : Nat) (q : String) (rs : SearchResultSet),
      c.reachable = true → now + 7200 ≤ t →
      ResultCache.get (ResultCache.put c now q rs) t q = none) := by
  refine ⟨?_, ?_, ?_, ?_⟩
  · intro c now q rs h
    simp [ResultCache.put, backendSetEx, h, lookupEntry, cacheTTL]
  · intro c now q rs h
    unfold ResultCache.get backendGet at h
    by_cases hr : c.reachable
    · simp [hr] at h
      cases hl : lookupEntry c.entries (cache_key q) with
      | none => simp [hl] at h
      | some ve =>
        obtain ⟨v, e⟩ := ve
        simp [hl] at h
        by_cases ht : now < e
        · simp [ht] at h
          subst h
          exact ⟨e, rfl, ht⟩
        · simp [ht] at h
    · simp [hr] at h
  · intro c now q rs k hk
    have hkq : ¬ (cache_key q = k) := fun h => hk h.symm
    by_cases hr : c.reachable
    · simp [ResultCache.put, backendSetEx, hr, lookupEntry, hkq]
    · simp [ResultCache.put, backendSetEx, hr]
  · intro c now t q rs hr ht
    simp [ResultCache.put, backendSetEx, hr, ResultCache.get, backendGet, lookupEntry, cacheTTL]
    omega

/-- Witness for C4: a concrete write stores expiry 100 + 7200. -/
theorem put_fixed_ttl_witness :
    (⟨true, []⟩ : CacheBackend).reachable = true ∧
    lookupEntry (ResultCache.put ⟨true, []⟩ 100 "q1" sampleSet).entries (cache_key "q1") =
      some (sampleSet, 100 + 7200) :=
  ⟨rfl, put_fixed_ttl.1 ⟨true, []⟩ 100 "q1" sampleSet rfl⟩

/-- Claim C5: with an unreachable backend store, `get` returns absent exactly
like a miss and `put` is swallowed leaving the cache unchanged; and any error
surfaced by `retrieve` is a wrapped provider error, never a cache error. -/
theorem cache_error_never_surfaced :
    (∀ (c : CacheBackend) (now : Nat) (q : String), c.reachable = false →
      ResultCache.get c now q = none) ∧
    (∀ (c : CacheBackend) (now : Nat) (q : String) (rs : SearchResultSet), c.reachable = false →
      ResultCache.put c now q rs = c) ∧
    (∀ (p : String → Except ProviderError SearchResultSet) (c : CacheBackend) (now : Nat)
        (q : String) (re : RetrievalError),
      (SearchGateway.retrieve p c now q).result = .error re → p q = .error re.wrapped) := by
  refine ⟨?_, ?_, ?_⟩
  · intro c now q h
    simp [ResultCache.get, backendGet, h]
  · intro c now q rs h
    simp [ResultCache.put, backendSetEx, h]
  · intro p c now q re h
    unfold SearchGateway.retrieve at h
    cases hg : ResultCache.get c now q with
    | some rs => simp [hg] at h
    | none =>
      cases hp : p q with
      | ok rs => simp [hg, hp] at h
      | error pe =>
        simp [hg, hp] at h
        subst h
        simp [hp]

/-- Witness for C5: an unreachable backend reads as a miss. -/
theorem cache_error_never_surfaced_witness :
    (⟨false, []⟩ : CacheBackend).reachable = false ∧
    ResultCache.get ⟨false, []⟩ 7 "q2" = none :=
  ⟨rfl, cache_error_never_surfaced.1 ⟨false, []⟩ 7 "q2" rfl⟩

/-- Claim C6: on a cache miss a failed provider call makes `retrieve`
propagate a RetrievalError wrapping the provider error, with exactly one
provider call and the cache left unchanged; and the cache state can change
only when the provider call succeeded. -/
theorem miss_provider_failure_no_write :
    (∀ (p : String → Except ProviderError SearchResultSet) (c : CacheBackend) (now : Nat)
        (q : String) (pe : ProviderError),
      ResultCache.get c now q = none → p q = .error pe →
      SearchGateway.retrieve p c now q = ⟨.error ⟨pe⟩, c, 1⟩) ∧
    (∀ (p : String → Except ProviderError SearchResultSet) (c : CacheBackend) (now : Nat)
        (q : String),
      (SearchGateway.retrieve p c now q).cache ≠ c → ∃ rs, p q = .ok rs) := by
  constructor
  · intro p c now q pe hm hp
    simp [SearchGateway.retrieve, hm, hp]
  · intro p c now q h
    unfold SearchGateway.retrieve at h
    cases hg : ResultCache.get c now q with
    | some rs => simp [hg] at h
    | none =>
      cases hp : p q with
      | ok rs => exact ⟨rs, rfl⟩
      | error pe => simp [hg, hp] at h

/-- Witness for C6: a failing provider on an empty cache leaves it unchanged
and surfaces the wrapped error. -/
theorem miss_provider_failure_no_write_witness :
    ResultCache.get ⟨true, []⟩ 0 "q3" = none ∧
    failingProvider "q3" = .error ⟨"bing", "quota"⟩ ∧
    SearchGateway.retrieve failingProvider ⟨true, []⟩ 0 "q3" =
      ⟨.error ⟨⟨"bing", "quota"⟩⟩, ⟨true, []⟩, 1⟩ :=
  ⟨rfl, rfl,
    miss_provider_failure_no_write.1 failingProvider ⟨true, []⟩ 0 "q3" ⟨"bing", "quota"⟩ rfl rfl⟩

/-- Claim C7: with an empty prior-turn list, `rephrase` returns the current
query unchanged and makes zero language-model invocations, for any model and
any query. -/
theorem rephrase_empty_history_id (model : String → List String → String) (q : String) :
    rephrase model q [] = (q, 0) := rfl

/-- Claim C8: running any sequence of emits followed by a single close on a
fresh emitter delivers exactly the emitted events in program order and closes
the stream; emitting on a closed emitter is invalid, and a second close is
invalid. -/
theorem stream_emitter_fifo_close_once :
    (∀ evs : List StreamEvent,
      runOps StreamEmitter.new (evs.map EmitterOp.emitOp ++ [EmitterOp.closeOp]) =
        some ⟨evs, true⟩) ∧
    (∀ (ch : List StreamEvent) (ev : StreamEvent), StreamEmitter.emit ⟨ch, true⟩ ev = none) ∧
    (∀ ch : List StreamEvent, StreamEmitter.close ⟨ch, true⟩ = none) := by
  refine ⟨?_, ?_, ?_⟩
  · intro evs
    have h := runOps_emit_phase evs [] [EmitterOp.closeOp]
    simp [StreamEmitter.new]
    rw [h]
    simp [runOps, StreamEmitter.close]
  · intro ch ev; rfl
  · intro ch; rfl

/-- Claim C9: `StarterQuestionsList` renders one item per entry of the fixed
four-element `starterQuestions` array, in array order, and activating the
i-th item's button calls `handleSend` exactly once with the i-th question. -/
theorem starter_questions_render :
    starterQuestions.length = 4 ∧
    StarterQuestionsList.length = 4 ∧
    (∀ i : Fin 4,
      (StarterQuestionsList.getD i.val ⟨"", []⟩).label = starterQuestions.getD i.val "" ∧
      activate (StarterQuestionsList.getD i.val ⟨"", []⟩) =
        [starterQuestions.getD i.val ""]) := by
  decide

/-- Claim C10: every completed `handleClearHistory` run ends with `showToast`
false, whichever way the fetch turned out, and `refetch` runs exactly once on
an ok response and never otherwise. -/
theorem clear_history_toast (o : FetchOutcome) :
    (handleClearHistory o).finalShowToast = false ∧
    (handleClearHistory o).refetchCalls = (if o.isOk then 1 else 0) := by
  cases o <;> simp [handleClearHistory, clearHistoryTry, FetchOutcome.isOk]
